import Mathlib

/-!
Verification of the data layer of PhotographerClientManager
(src/deepseek_python_20251207_1f32fc.py).

The `Database` and `ClientManager` classes are shallowly embedded: the SQLite
store becomes an explicit `DB` state, each SQL statement is given its
declarative semantics over that state (with ORDER-BY ties resolved in table
order, a deterministic refinement of SQLite's unspecified tie order), the
filesystem and the PIL image operations become an explicit environment, and
Python exceptions become `Except` results.
-/

namespace Photo

/-! ### Character and string primitives

SQLite compares TEXT values with the BINARY collation (byte order of the
UTF-8 encoding, which coincides with code-point order), and its LIKE operator
is case-insensitive on the ASCII range only.  Python's `str.lower` is modelled
on the ASCII range, which covers the file-extension strings it is applied to.
-/

/-- ASCII lower-casing of one character (identity outside A-Z). -/
def lowerAscii (c : Char) : Char :=
  if 65 ≤ c.toNat ∧ c.toNat ≤ 90 then Char.ofNat (c.toNat + 32) else c

/-- ASCII lower-casing of a string, modelling Python `str.lower()` on the
ASCII strings the source applies it to. -/
def lowerStr (s : String) : String :=
  ⟨s.data.map lowerAscii⟩

/-- One list of characters is a prefix of another. -/
def isPrefixCh : List Char → List Char → Bool
  | [], _ => true
  | _ :: _, [] => false
  | a :: as, b :: bs => a == b && isPrefixCh as bs

/-- Literal (case-sensitive) substring test on character lists. -/
def isSubstrCh (n : List Char) : List Char → Bool
  | [] => n.isEmpty
  | b :: bs => isPrefixCh n (b :: bs) || isSubstrCh n bs

/-- Literal substring test on strings. -/
def isSubstr (needle hay : String) : Bool :=
  isSubstrCh needle.data hay.data

/-- Suffix test on character lists. -/
def endsWithCh (s suffix : List Char) : Bool :=
  isPrefixCh suffix.reverse s.reverse

/-- Suffix test on strings, modelling Python `str.endswith`. -/
def strEndsWith (s suffix : String) : Bool :=
  endsWithCh s.data suffix.data

/-- SQLite LIKE matching on character lists: first argument is the pattern
(`%` matches any sequence of characters — equivalently, the rest of the
pattern matches some suffix of the subject — `_` matches any single
character, and any other character matches ASCII-case-insensitively). -/
def likeMatch : List Char → List Char → Bool
  | [], s => s.isEmpty
  | '%' :: ps, s => s.tails.any (fun t => likeMatch ps t)
  | '_' :: ps, s =>
    match s with
    | [] => false
    | _ :: s1 => likeMatch ps s1
  | p :: ps, s =>
    match s with
    | [] => false
    | c :: s1 => (lowerAscii p == lowerAscii c) && likeMatch ps s1

/-- The SQL expression `subject LIKE pattern`. -/
def sqlLike (subject pattern : String) : Bool :=
  likeMatch pattern.data subject.data

/-! ### Comparators

Three-way comparators model the sort keys of the ORDER BY clauses.  `CmpLaws`
collects the properties needed to show that the derived `leB` relations are
total preorders, which makes the insertion-sort output `Pairwise`-sorted.
-/

/-- Three-way comparison of character lists in BINARY (code-point) order,
modelling SQLite TEXT comparison. -/
def cmpCh : List Char → List Char → Ordering
  | [], [] => .eq
  | [], _ :: _ => .lt
  | _ :: _, [] => .gt
  | a :: as, b :: bs => if a < b then .lt else if b < a then .gt else cmpCh as bs

/-- Three-way comparison of strings in SQLite BINARY order. -/
def cmpStr (a b : String) : Ordering :=
  cmpCh a.data b.data

/-- Three-way comparison of nullable TEXT values: NULL sorts below every
string, as in SQLite. -/
def cmpOptStr : Option String → Option String → Ordering
  | none, none => .eq
  | none, some _ => .lt
  | some _, none => .gt
  | some a, some b => cmpStr a b

/-- Three-way comparison of INTEGER values. -/
def cmpNat (m n : Nat) : Ordering :=
  if m < n then .lt else if n < m then .gt else .eq

/-- Comparator on a projection of the compared values. -/
def cmpOn {α β : Type} (f : α → β) (c : β → β → Ordering) (a b : α) : Ordering :=
  c (f a) (f b)

/-- Reversed comparator, modelling a DESC sort key. -/
def cmpFlip {α : Type} (c : α → α → Ordering) (a b : α) : Ordering :=
  c b a

/-- Lexicographic composition of comparators, modelling an ORDER BY clause
with two keys. -/
def cmpThen {α : Type} (c1 c2 : α → α → Ordering) (a b : α) : Ordering :=
  (c1 a b).then (c2 a b)

/-- Non-strict comparison derived from a comparator. -/
def leB {α : Type} (cmp : α → α → Ordering) (a b : α) : Bool :=
  match cmp a b with
  | .gt => false
  | _ => true

/-- Laws making a comparator a total preorder comparison. -/
structure CmpLaws {α : Type} (cmp : α → α → Ordering) : Prop where
  symm : ∀ a b, cmp a b = (cmp b a).swap
  lt_of_lt_of_lt : ∀ a b c, cmp a b = .lt → cmp b c = .lt → cmp a c = .lt
  congr_left : ∀ a b x, cmp a b = .eq → cmp a x = cmp b x

theorem CmpLaws.congr_right {α : Type} {cmp : α → α → Ordering} (h : CmpLaws cmp)
    (a b x : α) (hab : cmp a b = .eq) : cmp x a = cmp x b := by
  rw [h.symm x a, h.congr_left a b x hab, ← h.symm x b]

theorem cmpCh_symm : ∀ as bs, cmpCh as bs = (cmpCh bs as).swap := by
  intro as
  induction as with
  | nil => intro bs; cases bs <;> rfl
  | cons a as ih =>
    intro bs
    cases bs with
    | nil => rfl
    | cons b bs =>
      simp only [cmpCh]
      rcases lt_trichotomy a b with h | h | h
      · rw [if_pos h, if_neg (lt_asymm h), if_pos h]; rfl
      · subst h
        rw [if_neg (lt_irrefl a), if_neg (lt_irrefl a), if_neg (lt_irrefl a),
          if_neg (lt_irrefl a)]
        exact ih bs
      · rw [if_neg (lt_asymm h), if_pos h, if_pos h]; rfl

theorem cmpCh_eq_iff : ∀ as bs, cmpCh as bs = .eq ↔ as = bs := by
  intro as
  induction as with
  | nil => intro bs; cases bs <;> simp [cmpCh]
  | cons a as ih =>
    intro bs
    cases bs with
    | nil => simp [cmpCh]
    | cons b bs =>
      simp only [cmpCh]
      rcases lt_trichotomy a b with h | h | h
      · rw [if_pos h]
        simp [ne_of_lt h]
      · subst h
        rw [if_neg (lt_irrefl a), if_neg (lt_irrefl a)]
        simp [ih bs]
      · rw [if_neg (lt_asymm h), if_pos h]
        simp [(ne_of_lt h).symm]

theorem cmpCh_lt_trans :
    ∀ as bs cs, cmpCh as bs = .lt → cmpCh bs cs = .lt → cmpCh as cs = .lt := by
  intro as
  induction as with
  | nil =>
    intro bs cs h1 h2
    cases bs with
    | nil => simp [cmpCh] at h1
    | cons b bs =>
      cases cs with
      | nil => simp [cmpCh] at h2
      | cons c cs => simp [cmpCh]
  | cons a as ih =>
    intro bs cs h1 h2
    cases bs with
    | nil => simp [cmpCh] at h1
    | cons b bs =>
      cases cs with
      | nil => simp [cmpCh] at h2
      | cons c cs =>
        simp only [cmpCh] at h1 h2 ⊢
        by_cases hab : a < b
        · by_cases hbc : b < c
          · rw [if_pos (lt_trans hab hbc)]
          · by_cases hcb : c < b
            · rw [if_neg hbc, if_pos hcb] at h2
              exact absurd h2 (by decide)
            · have hb : b = c := le_antisymm (not_lt.1 hcb) (not_lt.1 hbc)
              subst hb
              rw [if_pos hab]
        · by_cases hba : b < a
          · rw [if_neg hab, if_pos hba] at h1
            exact absurd h1 (by decide)
          · have ha : a = b := le_antisymm (not_lt.1 hba) (not_lt.1 hab)
            subst ha
            rw [if_neg hab, if_neg hba] at h1
            by_cases hac : a < c
            · rw [if_pos hac]
            · by_cases hca : c < a
              · rw [if_neg hac, if_pos hca] at h2
                exact absurd h2 (by decide)
              · have hc : a = c := le_antisymm (not_lt.1 hca) (not_lt.1 hac)
                subst hc
                rw [if_neg hac, if_neg hca] at h2 ⊢
                exact ih bs cs h1 h2

theorem cmpCh_laws : CmpLaws cmpCh :=
  ⟨cmpCh_symm, cmpCh_lt_trans, fun a b x h => by rw [(cmpCh_eq_iff a b).1 h]⟩

theorem cmpStr_laws : CmpLaws cmpStr :=
  ⟨fun a b => cmpCh_symm a.data b.data,
   fun a b c => cmpCh_lt_trans a.data b.data c.data,
   fun a b x h => by
     show cmpCh a.data x.data = cmpCh b.data x.data
     rw [(cmpCh_eq_iff a.data b.data).1 h]⟩

theorem cmpOptStr_laws : CmpLaws cmpOptStr := by
  refine ⟨?_, ?_, ?_⟩
  · intro a b
    cases a with
    | none => cases b <;> rfl
    | some u =>
      cases b with
      | none => rfl
      | some v => exact cmpStr_laws.symm u v
  · intro a b c h1 h2
    cases a with
    | none =>
      cases c with
      | none =>
        cases b with
        | none => simp [cmpOptStr] at h1
        | some v => simp [cmpOptStr] at h2
      | some w => rfl
    | some u =>
      cases b with
      | none => simp [cmpOptStr] at h1
      | some v =>
        cases c with
        | none => simp [cmpOptStr] at h2
        | some w =>
          simp only [cmpOptStr] at h1 h2 ⊢
          exact cmpStr_laws.lt_of_lt_of_lt u v w h1 h2
  · intro a b w h
    cases a with
    | none =>
      cases b with
      | none => rfl
      | some v => simp [cmpOptStr] at h
    | some u =>
      cases b with
      | none => simp [cmpOptStr] at h
      | some v =>
        cases w with
        | none => rfl
        | some z =>
          simp only [cmpOptStr] at h ⊢
          exact cmpStr_laws.congr_left u v z h

theorem cmpNat_laws : CmpLaws cmpNat := by
  refine ⟨?_, ?_, ?_⟩
  · intro a b
    unfold cmpNat
    rcases lt_trichotomy a b with h | h | h
    · rw [if_pos h, if_neg (lt_asymm h), if_pos h]; rfl
    · subst h; rw [if_neg (lt_irrefl a), if_neg (lt_irrefl a)]; rfl
    · rw [if_neg (lt_asymm h), if_pos h, if_pos h]; rfl
  · intro a b c h1 h2
    unfold cmpNat at h1 h2 ⊢
    have hab : a < b := by
      by_contra hx
      rw [if_neg hx] at h1
      split at h1 <;> simp_all
    have hbc : b < c := by
      by_contra hx
      rw [if_neg hx] at h2
      split at h2 <;> simp_all
    rw [if_pos (lt_trans hab hbc)]
  · intro a b x h
    unfold cmpNat at h
    split at h
    · simp at h
    · split at h
      · simp at h
      · have : a = b := by omega
        subst this; rfl

theorem cmpOn_laws {α β : Type} (f : α → β) {c : β → β → Ordering}
    (h : CmpLaws c) : CmpLaws (cmpOn f c) :=
  ⟨fun a b => h.symm (f a) (f b),
   fun a b x => h.lt_of_lt_of_lt (f a) (f b) (f x),
   fun a b x hab => h.congr_left (f a) (f b) (f x) hab⟩

theorem cmpFlip_laws {α : Type} {c : α → α → Ordering} (h : CmpLaws c) :
    CmpLaws (cmpFlip c) := by
  refine ⟨fun a b => h.symm b a, ?_, ?_⟩
  · intro a b x h1 h2
    exact h.lt_of_lt_of_lt x b a h2 h1
  · intro a b x hab
    have hba : c b a = .eq := hab
    have hab' : c a b = .eq := by
      have hs := h.symm a b
      rw [hba] at hs
      simpa using hs
    show c x a = c x b
    exact h.congr_right a b x hab'

theorem orderingSwapThen (x y : Ordering) :
    (x.then y).swap = x.swap.then y.swap := by
  cases x <;> cases y <;> rfl

theorem orderingThenEqLt (x y : Ordering) :
    x.then y = .lt ↔ x = .lt ∨ (x = .eq ∧ y = .lt) := by
  cases x <;> cases y <;> simp [Ordering.then]

theorem orderingThenEqEq (x y : Ordering) :
    x.then y = .eq ↔ x = .eq ∧ y = .eq := by
  cases x <;> cases y <;> simp [Ordering.then]

theorem cmpThen_laws {α : Type} {c1 c2 : α → α → Ordering}
    (h1 : CmpLaws c1) (h2 : CmpLaws c2) : CmpLaws (cmpThen c1 c2) := by
  refine ⟨?_, ?_, ?_⟩
  · intro a b
    show (c1 a b).then (c2 a b) = ((c1 b a).then (c2 b a)).swap
    rw [orderingSwapThen, ← h1.symm, ← h2.symm]
  · intro a b x ha hb
    rw [show cmpThen c1 c2 a b = (c1 a b).then (c2 a b) from rfl,
      orderingThenEqLt] at ha
    rw [show cmpThen c1 c2 b x = (c1 b x).then (c2 b x) from rfl,
      orderingThenEqLt] at hb
    show (c1 a x).then (c2 a x) = .lt
    rw [orderingThenEqLt]
    rcases ha with ha | ⟨hae, ha2⟩
    · rcases hb with hb | ⟨hbe, hb2⟩
      · exact Or.inl (h1.lt_of_lt_of_lt a b x ha hb)
      · exact Or.inl (by rw [← h1.congr_right b x a hbe]; exact ha)
    · rcases hb with hb | ⟨hbe, hb2⟩
      · exact Or.inl (by rw [h1.congr_left a b x hae]; exact hb)
      · refine Or.inr ⟨by rw [h1.congr_left a b x hae]; exact hbe, ?_⟩
        exact h2.lt_of_lt_of_lt a b x ha2 hb2
  · intro a b x hab
    rw [show cmpThen c1 c2 a b = (c1 a b).then (c2 a b) from rfl,
      orderingThenEqEq] at hab
    show (c1 a x).then (c2 a x) = (c1 b x).then (c2 b x)
    rw [h1.congr_left a b x hab.1, h2.congr_left a b x hab.2]

theorem leB_total {α : Type} {cmp : α → α → Ordering} (h : CmpLaws cmp)
    (a b : α) : leB cmp a b = true ∨ leB cmp b a = true := by
  cases hab : cmp a b with
  | lt => left; simp [leB, hab]
  | eq => left; simp [leB, hab]
  | gt =>
    right
    have : cmp b a = .lt := by
      have hs := h.symm a b
      rw [hab] at hs
      cases hba : cmp b a <;> rw [hba] at hs <;> simp_all [Ordering.swap]
    simp [leB, this]

theorem leB_trans {α : Type} {cmp : α → α → Ordering} (h : CmpLaws cmp)
    (a b c : α) (hab : leB cmp a b = true) (hbc : leB cmp b c = true) :
    leB cmp a c = true := by
  have hab' : cmp a b ≠ .gt := by
    intro hx; rw [leB, hx] at hab; exact absurd hab (by decide)
  have hbc' : cmp b c ≠ .gt := by
    intro hx; rw [leB, hx] at hbc; exact absurd hbc (by decide)
  have hac : cmp a c ≠ .gt := by
    cases h1 : cmp a b with
    | gt => exact absurd h1 hab'
    | eq =>
      rw [h.congr_left a b c h1]
      exact hbc'
    | lt =>
      cases h2 : cmp b c with
      | gt => exact absurd h2 hbc'
      | eq =>
        rw [← h.congr_right b c a h2, h1]
        decide
      | lt =>
        rw [h.lt_of_lt_of_lt a b c h1 h2]
        decide
  rw [leB]
  cases hv : cmp a c
  · rfl
  · rfl
  · exact absurd hv hac

/-! ### Stable insertion sort

Models the ORDER BY clauses: rows are sorted by the comparator key and rows
with equal keys keep their table order (a deterministic refinement of
SQLite's unspecified tie order). -/

/-- Insert an element in front of the first element it compares
less-or-equal to. -/
def ordInsert {α : Type} (le : α → α → Bool) (x : α) : List α → List α
  | [] => [x]
  | y :: ys => if le x y then x :: y :: ys else y :: ordInsert le x ys

/-- Stable insertion sort. -/
def insSort {α : Type} (le : α → α → Bool) : List α → List α
  | [] => []
  | x :: xs => ordInsert le x (insSort le xs)

theorem ordInsert_perm {α : Type} (le : α → α → Bool) (x : α) :
    ∀ l : List α, List.Perm (ordInsert le x l) (x :: l) := by
  intro l
  induction l with
  | nil => exact List.Perm.refl _
  | cons y ys ih =>
    simp only [ordInsert]
    split
    · exact List.Perm.refl _
    · exact (ih.cons y).trans (List.Perm.swap x y ys)

theorem insSort_perm {α : Type} (le : α → α → Bool) :
    ∀ l : List α, List.Perm (insSort le l) l := by
  intro l
  induction l with
  | nil => exact List.Perm.refl _
  | cons x xs ih =>
    exact (ordInsert_perm le x (insSort le xs)).trans (ih.cons x)

theorem pairwise_ordInsert {α : Type} (le : α → α → Bool)
    (htot : ∀ a b, le a b = true ∨ le b a = true)
    (htrans : ∀ a b c, le a b = true → le b c = true → le a c = true)
    (x : α) :
    ∀ l : List α, List.Pairwise (fun a b => le a b = true) l →
      List.Pairwise (fun a b => le a b = true) (ordInsert le x l) := by
  intro l
  induction l with
  | nil => intro _; simp [ordInsert]
  | cons y ys ih =>
    intro hp
    simp only [ordInsert]
    split
    · rename_i hxy
      refine List.Pairwise.cons ?_ hp
      intro z hz
      rcases List.mem_cons.1 hz with rfl | hz
      · exact hxy
      · exact htrans x y z hxy (List.rel_of_pairwise_cons hp hz)
    · rename_i hxy
      have hyx : le y x = true := by
        rcases htot x y with h | h
        · exact absurd h hxy
        · exact h
      refine List.Pairwise.cons ?_ (ih hp.tail)
      intro z hz
      have hz' : z = x ∨ z ∈ ys := by
        have := (ordInsert_perm le x ys).mem_iff.1 hz
        simpa using this
      rcases hz' with rfl | hz'
      · exact hyx
      · exact List.rel_of_pairwise_cons hp hz'

theorem insSort_pairwise {α : Type} (le : α → α → Bool)
    (htot : ∀ a b, le a b = true ∨ le b a = true)
    (htrans : ∀ a b c, le a b = true → le b c = true → le a c = true) :
    ∀ l : List α, List.Pairwise (fun a b => le a b = true) (insSort le l) := by
  intro l
  induction l with
  | nil => simp [insSort]
  | cons x xs ih =>
    exact pairwise_ordInsert le htot htrans x (insSort le xs) ih

/-! ### Environment: filesystem and image operations

`add_client` consults `os.path.exists`, and `_generate_avatar` uses
`os.listdir` plus the PIL open/convert/resize/save pipeline.  These external
effects are modelled by an explicit environment: a finite map from paths to
filesystem entries, plus oracles saying whether decoding the image at a path
succeeds and whether saving a JPEG at a path succeeds, plus Python's `hash`
as an uninterpreted function. -/

/-- A filesystem entry: a regular file, or a directory with its listing. -/
inductive FsEntry : Type
  | file : FsEntry
  | dir : List String → FsEntry
deriving DecidableEq

/-- A finite model of the filesystem visible to the program. -/
structure FS : Type where
  entries : List (String × FsEntry)
deriving DecidableEq

/-- Look a path up in the filesystem. -/
def lookupFS (fs : FS) (p : String) : Option FsEntry :=
  (fs.entries.find? (fun e => e.1 == p)).map (fun e => e.2)

/-- Python `os.path.exists`: true for files and directories alike. -/
def os_path_exists (fs : FS) (p : String) : Bool :=
  (lookupFS fs p).isSome

/-- Errors surfaced by the embedded operations, standing for the Python
exceptions raised by the corresponding code paths. -/
inductive DbErr : Type
  | valueError : String → DbErr
  | sqlSyntax : DbErr
  | bindingMismatch : Nat → Nat → DbErr
  | osError : DbErr
  | imageError : DbErr
deriving DecidableEq

/-- Python `os.listdir`: the listing of a directory, an exception otherwise. -/
def os_listdir (fs : FS) (p : String) : Except DbErr (List String) :=
  match lookupFS fs p with
  | some (.dir l) => Except.ok l
  | some .file => Except.error .osError
  | none => Except.error .osError

/-- External-world environment of the client manager. -/
structure Env : Type where
  fs : FS
  decodeOk : String → Bool
  saveOk : String → Bool
  hashFn : String → Int
  cache_dir : String

/-! ### Data model

The two tables created by `Database.init_database`.  `name`, `folder_path`
are NOT NULL; `date` is nullable (`add_client` has `date=None` as default);
the remaining text columns are always inserted as strings by `add_client`.
Row identifiers come from AUTOINCREMENT, modelled by explicit next-id
counters standing for `cursor.lastrowid`. -/

/-- One row of the `clients` table. -/
structure ClientRow : Type where
  id : Nat
  name : String
  folder_path : String
  type_id : Option Nat
  date : Option String
  phone : String
  email : String
  notes : String
  avatar_path : String
  created_at : String
  updated_at : String
deriving DecidableEq

/-- One row of the `types` table. -/
structure TypeRow : Type where
  id : Nat
  name : String
  color : String
  created_at : String
  client_count : Nat
deriving DecidableEq

/-- The relational store: both tables plus the AUTOINCREMENT counters. -/
structure DB : Type where
  clients : List ClientRow
  types : List TypeRow
  next_client_id : Nat
  next_type_id : Nat
deriving DecidableEq

/-- `Config.theme_color`, used as the default color of a new category. -/
def theme_color : String := "#A8E6CF"

/-! ### ClientManager operations -/

/-- The image extension list of `_generate_avatar`. -/
def image_extensions : List String := [".jpg", ".jpeg", ".png", ".bmp", ".gif"]

/-- Test from `_generate_avatar`: `any(file.lower().endswith(ext) for ext in
image_extensions)`. -/
def isImageFile (file : String) : Bool :=
  image_extensions.any (fun ext => strEndsWith (lowerStr file) ext)

/-- Cache path of the generated avatar:
`cache_dir / f"avatar_{client_name}_{hash(file)}.jpg"`. -/
def avatar_cache_path (env : Env) (client_name file : String) : String :=
  env.cache_dir ++ "/avatar_" ++ client_name ++ "_" ++ toString (env.hashFn file) ++ ".jpg"

/-- Body of the `try:` block of `ClientManager._generate_avatar`: list the
folder, take the first image file, decode and re-encode it.  Returns the
cache path on success, the empty string when the folder holds no image file,
and an error for each exception the Python code could raise (bad folder,
decode failure, save failure). -/
def generate_avatar_body (env : Env) (folder_path client_name : String) :
    Except DbErr String :=
  match os_listdir env.fs folder_path with
  | Except.error e => Except.error e
  | Except.ok files =>
    match files.find? isImageFile with
    | none => Except.ok ""
    | some file =>
      let image_path := folder_path ++ "/" ++ file
      let avatar_path := avatar_cache_path env client_name file
      if env.decodeOk image_path then
        if env.saveOk avatar_path then Except.ok avatar_path
        else Except.error .imageError
      else Except.error .imageError

/-- `ClientManager._generate_avatar`: the body wrapped in the bare
`try/except` that swallows every exception; both the exceptional paths and
the no-image path return the empty string. -/
def generate_avatar (env : Env) (folder_path client_name : String) : String :=
  match generate_avatar_body env folder_path client_name with
  | Except.ok s => s
  | Except.error _ => ""

/-- `ClientManager._get_or_create_type`: look the name up with
`SELECT id FROM types WHERE name = ?` (case-sensitive BINARY equality);
if absent, insert a new row with the theme default color and
`client_count` at its schema default 0, returning `cursor.lastrowid`. -/
def get_or_create_type (db : DB) (type_name now : String) : DB × Nat :=
  match db.types.find? (fun t => t.name == type_name) with
  | some t => (db, t.id)
  | none =>
    let tid := db.next_type_id
    ({ db with
        types := db.types ++
          [{ id := tid, name := type_name, color := theme_color,
             created_at := now, client_count := 0 }],
        next_type_id := tid + 1 },
     tid)

/-- `ClientManager._update_type_count`:
`UPDATE types SET client_count = (SELECT COUNT(*) FROM clients WHERE
type_id = ?) WHERE id = ?` — the count is recomputed from the clients table,
not incremented. -/
def update_type_count (db : DB) (type_id : Nat) : DB :=
  { db with
    types := db.types.map (fun t =>
      if t.id == type_id then
        { t with
          client_count :=
            (db.clients.filter (fun c => c.type_id == some type_id)).length }
      else t) }

/-- `ClientManager.add_client`: raises ValueError when `os.path.exists`
fails on the folder path, otherwise resolves the category, generates the
avatar best-effort, inserts the row with both timestamps set to `now`, and
recomputes the affected category count.  Returns the new client id
(`cursor.lastrowid`). -/
def add_client (env : Env) (db : DB)
    (name folder_path type_name : String) (date : Option String)
    (phone email notes : String) (now : String) :
    Except DbErr (DB × Nat) :=
  if os_path_exists env.fs folder_path then
    let tr := get_or_create_type db type_name now
    let db1 := tr.1
    let type_id := tr.2
    let avatar_path := generate_avatar env folder_path name
    let cid := db1.next_client_id
    let row : ClientRow :=
      { id := cid, name := name, folder_path := folder_path,
        type_id := some type_id, date := date, phone := phone,
        email := email, notes := notes, avatar_path := avatar_path,
        created_at := now, updated_at := now }
    let db2 := { db1 with
      clients := db1.clients ++ [row], next_client_id := cid + 1 }
    Except.ok (update_type_count db2 type_id, cid)
  else
    Except.error (.valueError ("文件夹不存在: " ++ folder_path))

/-! ### Queries -/

/-- One row of the result of the `SELECT c.*, t.name, t.color ... LEFT JOIN`
queries. -/
structure JoinedRow : Type where
  c : ClientRow
  type_name : Option String
  type_color : Option String
deriving DecidableEq

/-- `FROM clients c LEFT JOIN types t ON c.type_id = t.id`: one output row
per matching type row, or a NULL-padded row when the client's type reference
is NULL or dangling. -/
def leftJoin (db : DB) : List JoinedRow :=
  db.clients.flatMap (fun c =>
    let ms : List TypeRow :=
      match c.type_id with
      | none => []
      | some tid => db.types.filter (fun t => t.id == tid)
    match ms with
    | [] => [{ c := c, type_name := none, type_color := none }]
    | _ => ms.map (fun t =>
        { c := c, type_name := some t.name, type_color := some t.color }))

/-- The WHERE clause of `search_clients`:
`c.name LIKE ? OR c.phone LIKE ? OR c.notes LIKE ? OR t.name LIKE ?` with
every placeholder bound to `f"%{keyword}%"`.  A NULL joined type name fails
the LIKE test, as in SQL. -/
def matchRow (keyword : String) (r : JoinedRow) : Bool :=
  let pat := "%" ++ keyword ++ "%"
  sqlLike r.c.name pat || sqlLike r.c.phone pat || sqlLike r.c.notes pat ||
    (match r.type_name with
     | some tn => sqlLike tn pat
     | none => false)

/-- Sort key of `ORDER BY c.date DESC` (NULL dates last, as SQLite sorts
NULL smallest ascending). -/
def cmpRowDate : JoinedRow → JoinedRow → Ordering :=
  cmpFlip (cmpOn (fun r => r.c.date) cmpOptStr)

/-- Sort key of `ORDER BY c.date DESC, c.name`. -/
def cmpRowAll : JoinedRow → JoinedRow → Ordering :=
  cmpThen cmpRowDate (cmpOn (fun r => r.c.name) cmpStr)

/-- Row order produced by `ORDER BY c.date DESC, c.name`. -/
def rowLeAll : JoinedRow → JoinedRow → Bool := leB cmpRowAll

/-- Row order produced by `ORDER BY c.date DESC` alone. -/
def rowLeDate : JoinedRow → JoinedRow → Bool := leB cmpRowDate

/-- `ClientManager.get_all_clients`: the full join ordered by
`c.date DESC, c.name`. -/
def get_all_clients (db : DB) : List JoinedRow :=
  insSort rowLeAll (leftJoin db)

/-- `ClientManager.search_clients`: the join filtered by the four-way LIKE
disjunction, ordered by `c.date DESC` only — the query has no name
tie-break. -/
def search_clients (db : DB) (keyword : String) : List JoinedRow :=
  insSort rowLeDate ((leftJoin db).filter (matchRow keyword))

/-- `ClientManager.update_client`: builds
`UPDATE clients SET k1 = ?, ..., kn = ?, updated_at = ? WHERE id = ?` from
the keyword arguments, but appends `client_id` to the parameter list twice
(once, stray, before building the query and once at the end), so the
statement has `n + 2` placeholders while `n + 3` parameters are supplied.
With no keyword arguments the SET clause is empty and the statement is
syntactically malformed.  SQLite first parses the statement, then checks
the binding count, so the model errors in that order; the final branch
(execution of a well-formed, fully bound update) is unreachable because the
counts never agree. -/
def update_client (db : DB) (client_id : Nat)
    (kwargs : List (String × String)) (now : String) : Except DbErr DB :=
  let set_clause := kwargs.map (fun kv => kv.1 ++ " = ?")
  let params := (kwargs.map (fun kv => kv.2)) ++
    [toString client_id] ++ [now] ++ [toString client_id]
  if set_clause.length == 0 then
    Except.error .sqlSyntax
  else if params.length != set_clause.length + 2 then
    Except.error (.bindingMismatch (set_clause.length + 2) params.length)
  else
    Except.ok { db with
      clients := db.clients.map (fun c =>
        if c.id == client_id then
          { c with updated_at := now }
        else c) }

/-- `ClientManager.delete_client`: `DELETE FROM clients WHERE id = ?` — no
error when nothing matches, and the `types` table is never touched. -/
def delete_client (db : DB) (client_id : Nat) : DB :=
  { db with clients := db.clients.filter (fun c => !(c.id == client_id)) }

/-- Sort key of `ORDER BY client_count DESC`. -/
def cmpTypeCount : TypeRow → TypeRow → Ordering :=
  cmpFlip (cmpOn (fun t => t.client_count) cmpNat)

/-- Type-row order of `get_types`. -/
def typeLe : TypeRow → TypeRow → Bool := leB cmpTypeCount

/-- `ClientManager.get_types`:
`SELECT * FROM types ORDER BY client_count DESC`. -/
def get_types (db : DB) : List TypeRow :=
  insSort typeLe db.types

/-! ### Concrete states used as test inputs -/

/-- The empty store, as created by `init_database`. -/
def dbEmpty : DB :=
  { clients := [], types := [], next_client_id := 1, next_type_id := 1 }

/-- A store holding one client named "abc" with id 1. -/
def dbOne : DB :=
  { clients := [
      { id := 1, name := "abc", folder_path := "/nas/abc", type_id := none,
        date := some "2024-05-01", phone := "", email := "", notes := "",
        avatar_path := "", created_at := "t0", updated_at := "t0" }],
    types := [], next_client_id := 2, next_type_id := 1 }

/-- A store holding two clients with the same shoot date, named "B" (first in
table order) and "A". -/
def dbTie : DB :=
  { clients := [
      { id := 1, name := "B", folder_path := "/nas/b", type_id := none,
        date := some "2024-03-20", phone := "", email := "", notes := "",
        avatar_path := "", created_at := "t0", updated_at := "t0" },
      { id := 2, name := "A", folder_path := "/nas/a", type_id := none,
        date := some "2024-03-20", phone := "", email := "", notes := "",
        avatar_path := "", created_at := "t0", updated_at := "t0" }],
    types := [], next_client_id := 3, next_type_id := 1 }

/-- An environment whose filesystem holds one empty directory `/nas`. -/
def envDir : Env :=
  { fs := { entries := [("/nas", FsEntry.dir [])] },
    decodeOk := fun _ => true, saveOk := fun _ => true,
    hashFn := fun _ => 0, cache_dir := "/cache" }

/-- An environment whose filesystem holds a regular file at `/p`:
`/p` exists but is not a directory. -/
def envFile : Env :=
  { fs := { entries := [("/p", FsEntry.file)] },
    decodeOk := fun _ => true, saveOk := fun _ => true,
    hashFn := fun _ => 0, cache_dir := "/cache" }

/-! ### General lemmas about the embedded operations -/

theorem cmpRowDate_laws : CmpLaws cmpRowDate :=
  cmpFlip_laws (cmpOn_laws (fun r => r.c.date) cmpOptStr_laws)

theorem cmpRowAll_laws : CmpLaws cmpRowAll :=
  cmpThen_laws cmpRowDate_laws (cmpOn_laws (fun r => r.c.name) cmpStr_laws)

theorem tails_any_isEmpty (s : List Char) :
    s.tails.any (fun t => t.isEmpty) = true := by
  induction s with
  | nil => rfl
  | cons c s ih => simp [List.tails_cons, List.any_cons, ih]

theorem likeMatch_percent (s : List Char) : likeMatch ['%'] s = true := by
  have h : ∀ t : List Char, likeMatch [] t = t.isEmpty := fun t => rfl
  show s.tails.any (fun t => likeMatch [] t) = true
  simp only [h]
  exact tails_any_isEmpty s

theorem likeMatch_double_percent (s : List Char) :
    likeMatch ['%', '%'] s = true := by
  show s.tails.any (fun t => likeMatch ['%'] t) = true
  simp only [likeMatch_percent]
  cases s with
  | nil => rfl
  | cons c s => simp [List.tails_cons, List.any_cons]

theorem matchRow_empty (r : JoinedRow) : matchRow "" r = true := by
  simp only [matchRow, sqlLike]
  have hd : ("%" ++ "" ++ "%").data = ['%', '%'] := rfl
  simp only [hd]
  simp [likeMatch_double_percent]

theorem length_filter_map_of_pres {α : Type} (f : α → α) (p : α → Bool)
    (hf : ∀ a, p (f a) = p a) (l : List α) :
    ((l.map f).filter p).length = (l.filter p).length := by
  induction l with
  | nil => rfl
  | cons a l ih =>
    simp only [List.map_cons, List.filter_cons, hf a]
    split <;> simp [ih]

theorem find?_map_of_pres {α : Type} (f : α → α) (p : α → Bool)
    (hf : ∀ a, p (f a) = p a) (l : List α) :
    (l.map f).find? p = (l.find? p).map f := by
  rw [List.find?_map, show p ∘ f = p from funext hf]

/-- The update function of `_update_type_count` leaves every predicate that
ignores `client_count` unchanged. -/
theorem utcFun_pres (q : TypeRow → Bool)
    (hq : ∀ (t : TypeRow) (n : Nat), q { t with client_count := n } = q t)
    (x n : Nat) (t : TypeRow) :
    q (if t.id == x then { t with client_count := n } else t) = q t := by
  by_cases h : (t.id == x) = true
  · rw [if_pos h, hq]
  · rw [if_neg h]

theorem goc_clients (db : DB) (tn now : String) :
    (get_or_create_type db tn now).1.clients = db.clients := by
  unfold get_or_create_type
  cases db.types.find? (fun t => t.name == tn) <;> rfl

theorem goc_absent_fst_types (db : DB) (tn now : String)
    (hfind : db.types.find? (fun t => t.name == tn) = none) :
    (get_or_create_type db tn now).1.types =
      db.types ++ [(⟨db.next_type_id, tn, theme_color, now, 0⟩ : TypeRow)] := by
  simp [get_or_create_type, hfind]

theorem goc_absent_snd (db : DB) (tn now : String)
    (hfind : db.types.find? (fun t => t.name == tn) = none) :
    (get_or_create_type db tn now).2 = db.next_type_id := by
  simp [get_or_create_type, hfind]

theorem goc_present_snd (db : DB) (tn now : String) (t0 : TypeRow)
    (hfind : db.types.find? (fun t => t.name == tn) = some t0) :
    (get_or_create_type db tn now).2 = t0.id := by
  simp [get_or_create_type, hfind]

theorem goc_present_fst (db : DB) (tn now : String) (t0 : TypeRow)
    (hfind : db.types.find? (fun t => t.name == tn) = some t0) :
    (get_or_create_type db tn now).1 = db := by
  simp [get_or_create_type, hfind]

/-- Elimination principle for a successful `add_client`: the clients table
grows by exactly the inserted row, the new row carries the id returned and
the category id resolved by get-or-create, and the types table is the
get-or-create result with the affected category's count recomputed from the
post-insert clients table. -/
theorem add_client_ok_elim (env : Env) (db : DB)
    (n f tn : String) (d : Option String) (p e o now : String)
    (db' : DB) (cid : Nat)
    (h : add_client env db n f tn d p e o now = Except.ok (db', cid)) :
    ∃ r : ClientRow,
      db'.clients = db.clients ++ [r] ∧
      r.id = cid ∧ r.name = n ∧
      r.type_id = some (get_or_create_type db tn now).2 ∧
      db'.types = (get_or_create_type db tn now).1.types.map
        (fun t => if t.id == (get_or_create_type db tn now).2 then
            { t with client_count := (db'.clients.filter
                (fun c => c.type_id == some (get_or_create_type db tn now).2)).length }
          else t) := by
  by_cases hex : os_path_exists env.fs f = true
  case neg => simp [add_client, hex] at h
  simp only [add_client, hex, if_true] at h
  rw [Except.ok.injEq, Prod.mk.injEq] at h
  obtain ⟨hdb, hcid⟩ := h
  subst hdb
  subst hcid
  exact ⟨_, congrArg (fun l => l ++ [_]) (goc_clients db tn now), rfl, rfl, rfl, rfl⟩

/-- The query built by `update_client` never executes: the supplied parameter
list is always one element longer than the placeholder list, so the binding
step fails for every non-empty field set, and the empty field set yields a
malformed statement. -/
theorem update_client_never_ok (db : DB) (cid : Nat)
    (kwargs : List (String × String)) (now : String) (db' : DB) :
    update_client db cid kwargs now ≠ Except.ok db' := by
  intro h
  cases kwargs with
  | nil => simp [update_client] at h
  | cons kv ks =>
    have hA : (((kv :: ks).map (fun kv => kv.1 ++ " = ?")).length == 0) = false := by
      simp
    have hB : ((((kv :: ks).map (fun kv => kv.2)) ++
        [toString cid] ++ [now] ++ [toString cid]).length !=
        ((kv :: ks).map (fun kv => kv.1 ++ " = ?")).length + 2) = true := by
      simp [bne]
    simp only [update_client, hA, hB] at h
    simp at h

/-! ### Claim theorems -/

/-- C1: the claim states that `update_client` succeeds for every present id
and non-empty field set; in fact the code appends `client_id` to the
parameter list twice (once before building the statement), so the bind step
always fails with a parameter-count mismatch (3 placeholders, 4 parameters
for a one-field update); the empty field set yields a malformed statement as
the claim says.  This theorem evaluates the code at the failing input. -/
theorem update_client_always_errors :
    update_client dbOne 1 [("name", "X")] "2024-06-02 10:00:00" =
      Except.error (DbErr.bindingMismatch 3 4) ∧
    update_client dbOne 1 [] "2024-06-02 10:00:00" =
      Except.error DbErr.sqlSyntax :=
  ⟨rfl, rfl⟩

/-- C2: after every successful `add_client` — whether or not the category
already existed — every `types` row carrying the affected category id
stores exactly the number of client rows whose category reference equals
that id, recomputed from the post-insert clients table.  The store `db` is
arbitrary (its stored counts may already have drifted), so an
increment-based implementation would not satisfy this statement. -/
theorem add_client_count_invariant (env : Env) (db : DB)
    (name folder tname : String) (date : Option String)
    (phone email notes now : String) (db' : DB) (cid : Nat)
    (h : add_client env db name folder tname date phone email notes now =
      Except.ok (db', cid)) :
    ∃ row : ClientRow, db'.clients.getLast? = some row ∧ row.id = cid ∧
      ∃ tid : Nat, row.type_id = some tid ∧
        ∀ t ∈ db'.types, t.id = tid →
          t.client_count =
            (db'.clients.filter (fun c => c.type_id == some tid)).length := by
  obtain ⟨r, hc, hid, hname, htid, hty⟩ :=
    add_client_ok_elim env db name folder tname date phone email notes now db' cid h
  refine ⟨r, ?_, hid, (get_or_create_type db tname now).2, htid, ?_⟩
  · rw [hc]
    exact List.getLast?_concat _
  · intro t ht htid'
    rw [hty] at ht
    rcases List.mem_map.1 ht with ⟨t0, ht0, rfl⟩
    by_cases h0 : (t0.id == (get_or_create_type db tname now).2) = true
    · rw [if_pos h0]
    · rw [if_neg h0] at htid' ⊢
      exact absurd (by simp [htid']) h0

/-- Witness for C2: adding "Mary" with the fresh type "Wedding" to the empty
store, the created category's stored count equals the recounted client
rows. -/
theorem add_client_count_invariant_witness :
    ∃ p : DB × Nat,
      add_client envDir dbEmpty "Mary" "/nas" "Wedding" none "" "" "" "t1" =
        Except.ok p ∧
      ∃ row : ClientRow, p.1.clients.getLast? = some row ∧ row.id = p.2 ∧
        ∃ tid : Nat, row.type_id = some tid ∧
          ∀ t ∈ p.1.types, t.id = tid →
            t.client_count =
              (p.1.clients.filter (fun c => c.type_id == some tid)).length := by
  refine ⟨_, rfl, ?_⟩
  exact add_client_count_invariant envDir dbEmpty "Mary" "/nas" "Wedding"
    none "" "" "" "t1" _ _ rfl

/-- C5: two successive successful `add_client` calls with the same
previously-unseen type name produce exactly one category row with that name
(case-sensitive exact match) and both inserted clients reference the same
category id. -/
theorem same_type_name_single_category (env : Env) (db : DB) (tname : String)
    (n1 f1 : String) (d1 : Option String) (p1 e1 o1 now1 : String)
    (n2 f2 : String) (d2 : Option String) (p2 e2 o2 now2 : String)
    (db1 db2 : DB) (c1 c2 : Nat)
    (h0 : ∀ t ∈ db.types, (t.name == tname) = false)
    (h1 : add_client env db n1 f1 tname d1 p1 e1 o1 now1 = Except.ok (db1, c1))
    (h2 : add_client env db1 n2 f2 tname d2 p2 e2 o2 now2 = Except.ok (db2, c2)) :
    (db2.types.filter (fun t => t.name == tname)).length = 1 ∧
    ∃ r1 r2 : ClientRow, db1.clients.getLast? = some r1 ∧
      db2.clients.getLast? = some r2 ∧ r1 ∈ db2.clients ∧
      ∃ tid : Nat, r1.type_id = some tid ∧ r2.type_id = some tid := by
  have hqn : ∀ (t : TypeRow) (n : Nat),
      ((({ t with client_count := n } : TypeRow).name == tname)) =
        (t.name == tname) :=
    fun t n => rfl
  have hfind : db.types.find? (fun t => t.name == tname) = none :=
    List.find?_eq_none.2 (fun t ht => by simp [h0 t ht])
  obtain ⟨r1, hc1, hid1, hn1, htid1, hty1⟩ :=
    add_client_ok_elim env db n1 f1 tname d1 p1 e1 o1 now1 db1 c1 h1
  obtain ⟨r2, hc2, hid2, hn2, htid2, hty2⟩ :=
    add_client_ok_elim env db1 n2 f2 tname d2 p2 e2 o2 now2 db2 c2 h2
  rw [goc_absent_snd db tname now1 hfind] at htid1
  rw [goc_absent_fst_types db tname now1 hfind,
    goc_absent_snd db tname now1 hfind] at hty1
  have hfind1 : db1.types.find? (fun t => t.name == tname) =
      some { id := db.next_type_id, name := tname, color := theme_color,
             created_at := now1,
             client_count := (db1.clients.filter
               (fun c => c.type_id == some db.next_type_id)).length } := by
    rw [hty1]
    rw [find?_map_of_pres _ _ (utcFun_pres _ hqn _ _)]
    rw [List.find?_append, hfind]
    simp
  have hsnd2 := goc_present_snd db1 tname now2 _ hfind1
  rw [hsnd2] at htid2
  rw [goc_present_fst db1 tname now2 _ hfind1, hsnd2] at hty2
  refine ⟨?_, r1, r2, ?_, ?_, ?_, db.next_type_id, htid1, htid2⟩
  · have hnil : db.types.filter (fun t => t.name == tname) = [] :=
      List.filter_eq_nil_iff.2 (fun t ht => by simp [h0 t ht])
    rw [hty2, length_filter_map_of_pres _ _ (utcFun_pres _ hqn _ _),
      hty1, length_filter_map_of_pres _ _ (utcFun_pres _ hqn _ _),
      List.filter_append, List.length_append, hnil]
    simp
  · rw [hc1]
    exact List.getLast?_concat _
  · rw [hc2]
    exact List.getLast?_concat _
  · rw [hc2, hc1]
    simp [List.mem_append]

/-- Witness for C5: adding "Mary" then "Tom" with the fresh type "Wedding"
creates one "Wedding" row and gives both clients the same category id. -/
theorem same_type_name_single_category_witness :
    (∀ t ∈ dbEmpty.types, (t.name == "Wedding") = false) ∧
    ∃ q1 q2 : DB × Nat,
      add_client envDir dbEmpty "Mary" "/nas" "Wedding" none "" "" "" "t1" =
        Except.ok q1 ∧
      add_client envDir q1.1 "Tom" "/nas" "Wedding" none "" "" "" "t2" =
        Except.ok q2 ∧
      ((q2.1.types.filter (fun t => t.name == "Wedding")).length = 1 ∧
       ∃ r1 r2 : ClientRow, q1.1.clients.getLast? = some r1 ∧
         q2.1.clients.getLast? = some r2 ∧ r1 ∈ q2.1.clients ∧
         ∃ tid : Nat, r1.type_id = some tid ∧ r2.type_id = some tid) := by
  refine ⟨by decide, _, _, rfl, rfl, ?_⟩
  exact same_type_name_single_category envDir dbEmpty "Wedding" "Mary" "/nas"
    none "" "" "" "t1" "Tom" "/nas" none "" "" "" "t2" _ _ _ _
    (by decide) rfl rfl

/-- C3: `delete_client` removes exactly the rows carrying the given id,
keeps every other client row, errors for no input, leaves the `types` table
(and hence `get_types`) untouched — stale counts persist — and is a no-op
on the store when no row carries the id. -/
theorem delete_client_frame (db : DB) (cid : Nat) :
    (delete_client db cid).types = db.types ∧
    get_types (delete_client db cid) = get_types db ∧
    (∀ c ∈ (delete_client db cid).clients, c.id ≠ cid) ∧
    (∀ c ∈ db.clients, c.id ≠ cid → c ∈ (delete_client db cid).clients) ∧
    ((∀ c ∈ db.clients, c.id ≠ cid) → delete_client db cid = db) := by
  refine ⟨rfl, rfl, ?_, ?_, ?_⟩
  · intro c hc
    have h2 := (List.mem_filter.1 hc).2
    simpa using h2
  · intro c hc hne
    refine List.mem_filter.2 ⟨hc, ?_⟩
    simpa using hne
  · intro h
    have hf : db.clients.filter (fun c => !(c.id == cid)) = db.clients := by
      refine List.filter_eq_self.2 ?_
      intro c hc
      simpa using h c hc
    show { db with clients := db.clients.filter (fun c => !(c.id == cid)) } = db
    rw [hf]

/-- Witness for C3 at a concrete store: deleting an absent id 3 from the
two-client store is a no-op and leaves `get_types` unchanged. -/
theorem delete_client_frame_witness :
    (delete_client dbTie 3).types = dbTie.types ∧
    get_types (delete_client dbTie 3) = get_types dbTie ∧
    (∀ c ∈ (delete_client dbTie 3).clients, c.id ≠ 3) ∧
    (∀ c ∈ dbTie.clients, c.id ≠ 3 → c ∈ (delete_client dbTie 3).clients) ∧
    delete_client dbTie 3 = dbTie := by
  have h := delete_client_frame dbTie 3
  exact ⟨h.1, h.2.1, h.2.2.1, h.2.2.2.1, h.2.2.2.2 (by decide)⟩

/-- C4 counterexample: the code guards `add_client` with `os.path.exists`,
not an is-directory check, so a folder path that exists as a regular file —
hence does not exist as a directory — is accepted and the client row is
inserted, contradicting the claim that every such call fails with a
validation error and performs no mutation. -/
theorem add_client_accepts_file_path :
    lookupFS envFile.fs "/p" = some FsEntry.file ∧
    (add_client envFile dbEmpty "Bob" "/p" "Wedding" none "" "" "" "t1").toOption.map
        (fun pr => pr.1.clients.length) = some 1 :=
  ⟨rfl, by decide⟩

/-- C4 amended: when the folder path does not exist at all (no filesystem
entry), `add_client` raises ValueError before touching the store — the
error is returned in place of any successor state, so no category row and
no client row is created. -/
theorem add_client_rejects_missing_path (env : Env) (db : DB)
    (name folder tname : String) (date : Option String)
    (phone email notes now : String)
    (h : os_path_exists env.fs folder = false) :
    add_client env db name folder tname date phone email notes now =
      Except.error (DbErr.valueError ("文件夹不存在: " ++ folder)) := by
  simp [add_client, h]

/-- Witness for the amended C4 at a concrete input. -/
theorem add_client_rejects_missing_path_witness :
    os_path_exists envDir.fs "/missing" = false ∧
    add_client envDir dbEmpty "A" "/missing" "W" none "" "" "" "t1" =
      Except.error (DbErr.valueError ("文件夹不存在: " ++ "/missing")) :=
  ⟨rfl, add_client_rejects_missing_path envDir dbEmpty "A" "/missing" "W"
    none "" "" "" "t1" rfl⟩

/-- C6 counterexample: `search_clients` orders by `c.date DESC` only.  On a
store whose table order is "B" then "A" with equal shoot dates, the search
result is ["B", "A"]: the date tie is not broken by client name, so the
search output is not sorted by the claimed (date DESC, name) order. -/
theorem search_ties_not_name_ordered :
    (search_clients dbTie "").map (fun r => r.c.name) = ["B", "A"] ∧
    (search_clients dbTie "").map (fun r => r.c.date) =
      [some "2024-03-20", some "2024-03-20"] ∧
    ¬ List.Pairwise (fun a b => rowLeAll a b = true) (search_clients dbTie "") := by
  refine ⟨by decide, by decide, by decide⟩

/-- C6 amended: `get_all_clients` returns every joined row ordered by shoot
date descending with ties broken by client name; `search_clients` returns
the joined rows matching the four-way LIKE disjunction ordered by shoot
date descending only, date ties staying in table order. -/
theorem query_ordering_spec (db : DB) (k : String) :
    List.Perm (get_all_clients db) (leftJoin db) ∧
    List.Pairwise (fun a b => rowLeAll a b = true) (get_all_clients db) ∧
    List.Perm (search_clients db k) ((leftJoin db).filter (matchRow k)) ∧
    List.Pairwise (fun a b => rowLeDate a b = true) (search_clients db k) := by
  refine ⟨insSort_perm _ _, ?_, insSort_perm _ _, ?_⟩
  · exact insSort_pairwise rowLeAll
      (fun a b => leB_total cmpRowAll_laws a b)
      (fun a b c => leB_trans cmpRowAll_laws a b c) _
  · exact insSort_pairwise rowLeDate
      (fun a b => leB_total cmpRowDate_laws a b)
      (fun a b c => leB_trans cmpRowDate_laws a b c) _

/-- C7: with the empty keyword the LIKE pattern is `%%`, which matches the
NOT NULL name column of every row, so `search_clients ""` returns the same
rows as `get_all_clients` (as a permutation — only the tie order differs). -/
theorem search_empty_eq_get_all (db : DB) :
    List.Perm (search_clients db "") (get_all_clients db) := by
  unfold search_clients get_all_clients
  rw [List.filter_eq_self.2 (fun r _ => matchRow_empty r)]
  exact (insSort_perm rowLeDate _).trans (insSort_perm rowLeAll _).symm

/-- C8: `_generate_avatar` never lets a failure escape: every error of the
body is swallowed into the empty string, and in particular a missing
folder, a folder with no image file among its direct entries, a failing
image decode, and a failing thumbnail write all yield `""`. -/
theorem generate_avatar_swallows_failures (env : Env) (folder name : String) :
    (∀ e, generate_avatar_body env folder name = Except.error e →
      generate_avatar env folder name = "") ∧
    (lookupFS env.fs folder = none → generate_avatar env folder name = "") ∧
    (∀ files, lookupFS env.fs folder = some (FsEntry.dir files) →
      files.find? isImageFile = none → generate_avatar env folder name = "") ∧
    (∀ files file, lookupFS env.fs folder = some (FsEntry.dir files) →
      files.find? isImageFile = some file →
      env.decodeOk (folder ++ "/" ++ file) = false →
      generate_avatar env folder name = "") ∧
    (∀ files file, lookupFS env.fs folder = some (FsEntry.dir files) →
      files.find? isImageFile = some file →
      env.saveOk (avatar_cache_path env name file) = false →
      generate_avatar env folder name = "") := by
  refine ⟨?_, ?_, ?_, ?_, ?_⟩
  · intro e h
    unfold generate_avatar
    rw [h]
  · intro h
    simp [generate_avatar, generate_avatar_body, os_listdir, h]
  · intro files h hn
    simp [generate_avatar, generate_avatar_body, os_listdir, h, hn]
  · intro files file h hf hd
    simp [generate_avatar, generate_avatar_body, os_listdir, h, hf, hd]
  · intro files file h hf hs
    by_cases hd : env.decodeOk (folder ++ "/" ++ file) = true
    · simp [generate_avatar, generate_avatar_body, os_listdir, h, hf, hd, hs]
    · simp [generate_avatar, generate_avatar_body, os_listdir, h, hf, hd]

/-- Witness for C8: a missing folder yields the empty string. -/
theorem generate_avatar_swallows_failures_witness :
    lookupFS envDir.fs "/missing" = none ∧
    generate_avatar envDir "/missing" "n" = "" :=
  ⟨rfl, (generate_avatar_swallows_failures envDir "/missing" "n").2.1 rfl⟩

/-- C9 counterexample: `ClientManager.add_client` performs no name
validation — called with the empty display name and an existing folder it
succeeds and inserts a client row whose name is empty, contradicting the
claim that it fails with a validation error before any mutation. -/
theorem add_client_accepts_empty_name :
    (add_client envDir dbEmpty "" "/nas" "Wedding" none "" "" "" "t1").toOption.map
        (fun pr => pr.1.clients.map (fun c => c.name)) = some [""] := by
  decide

/-- C9 amended: `add_client` itself never rejects an empty display name:
whenever the folder path exists it succeeds and the inserted row carries
the empty name (the required-name check lives only in the GUI dialog,
which reports the error before calling `add_client`). -/
theorem add_client_no_name_validation (env : Env) (db : DB)
    (folder tname : String) (date : Option String)
    (phone email notes now : String)
    (h : os_path_exists env.fs folder = true) :
    ∃ db' cid,
      add_client env db "" folder tname date phone email notes now =
        Except.ok (db', cid) ∧
      ∃ r, db'.clients.getLast? = some r ∧ r.name = "" := by
  simp only [add_client, h, if_true]
  refine ⟨_, _, rfl, ?_⟩
  exact ⟨_, List.getLast?_concat _, rfl⟩

/-- Witness for the amended C9 at a concrete input. -/
theorem add_client_no_name_validation_witness :
    os_path_exists envDir.fs "/nas" = true ∧
    ∃ db' cid,
      add_client envDir dbEmpty "" "/nas" "W" none "" "" "" "t1" =
        Except.ok (db', cid) ∧
      ∃ r, db'.clients.getLast? = some r ∧ r.name = "" :=
  ⟨rfl, add_client_no_name_validation envDir dbEmpty "/nas" "W" none "" "" "" "t1" rfl⟩

/-- C10: the keyword is interpolated into the LIKE pattern unescaped, so
`_` acts as a single-character wildcard: searching for "a_c" returns the
client named "abc" even though "a_c" occurs literally in none of its
matched fields (name "abc", phone "", notes "", and no category). -/
theorem like_metacharacter_match :
    (search_clients dbOne "a_c").map (fun r => r.c.name) = ["abc"] ∧
    isSubstr "a_c" "abc" = false ∧
    isSubstr "a_c" "" = false ∧
    sqlLike "abc" ("%" ++ "a_c" ++ "%") = true := by
  refine ⟨by decide, by decide, by decide, by decide⟩

end Photo
